import Mathlib

/-!
Verification of the ledger balance verifier of the Pinnacle Pacific mock-data
generator (`generate_pinnacle_data.py` / `part07_financials.py`).

Modelling conventions, fixed once for the whole development:

* All monetary values are modelled as exact rationals (`ℚ`).  The source works
  with Python floats, but the spec fixes the numeric semantics as decimal
  ("all monetary values are decimal"); every amount the generator emits is a
  multiple of one cent, so the CSV round-trip `fmt` / `float` is the identity
  and is not modelled separately.
* The trial-balance accumulator (a Python `defaultdict(float)` keyed by the
  integer account number) is a pair of the set of touched keys and a total
  balance function that is zero off the touched keys.
* An invoice's `gl_account` is kept already parsed, as `Option ℤ`
  (`int(inv["gl_account"]) if inv.get("gl_account") else None` in the source);
  the guard `if gl:` of the source is Python truthiness, i.e. it also rejects
  a parsed account `0`, which the embedding renders as an explicit `g = 0`
  test inside the `some` branch.
* `retainage_held` is likewise kept parsed; a missing/falsy field parses to
  `0` in the source, which coincides with the rational `0`.
-/

namespace Pinnacle

/-- One journal-entry line as consumed by `verify_financials`: entry number,
account number, debit amount and credit amount (already parsed; an empty
debit/credit cell parses to `0`). -/
structure JRow where
  entry : String
  account : ℤ
  debit : ℚ
  credit : ℚ
  deriving DecidableEq

/-- One invoice record, restricted to the fields `verify_financials` reads:
`invoice_type`, `amount`, `retainage_held`, `gl_account` and `status`. -/
structure Invoice where
  invoice_type : String
  amount : ℚ
  retainage_held : ℚ
  gl_account : Option ℤ
  status : String
  deriving DecidableEq

/-- The trial-balance accumulator `gl_balances : defaultdict(float)`: the set
of account numbers that occur as keys, together with the balance function
(debit-normal, zero for accounts that were never touched). -/
@[ext]

structure Ledger where
  keys : Finset ℤ
  bal : ℤ → ℚ

/-- The freshly created, empty accumulator. -/
def Ledger.empty : Ledger := ⟨∅, fun _ => 0⟩

/-- The statement `gl_balances[a] += d` on a `defaultdict(float)`: the key is
inserted (with previous value `0` if absent) and the balance is bumped. -/
def bump (L : Ledger) (a : ℤ) (d : ℚ) : Ledger :=
  ⟨insert a L.keys, Function.update L.bal a (L.bal a + d)⟩

/-- Well-formedness of an accumulator: accounts outside the key set carry a
zero balance.  `Ledger.empty` has it and every program step preserves it. -/
def WF (L : Ledger) : Prop := ∀ a : ℤ, a ∉ L.keys → L.bal a = 0

/-- The sum of all balances held in the accumulator. -/
def total (L : Ledger) : ℚ := ∑ a ∈ L.keys, L.bal a

/-- Step 3 of `verify_financials`, for a single invoice: the estimated
auto-journal-entry impact of the invoice on the accumulator, translated
statement by statement.  The `some g`/`g = 0` analysis renders the source's
truthiness guard `if gl:` on the parsed account. -/
def projectOne (L : Ledger) (inv : Invoice) : Ledger :=
  let amt := inv.amount
  let ret := inv.retainage_held
  if inv.invoice_type = "receivable" then
    let net_ar := amt - ret
    let L1 := bump L 1010 net_ar
    let L2 := if 0 < ret then bump L1 1020 ret else L1
    let L3 := match inv.gl_account with
      | some g => if g = 0 then L2 else bump L2 g (-amt)
      | none => L2
    if inv.status = "paid" then bump (bump L3 1000 net_ar) 1010 (-net_ar) else L3
  else if inv.invoice_type = "payable" then
    let net_ap := amt - ret
    let L1 := match inv.gl_account with
      | some g => if g = 0 then L else bump L g amt
      | none => L
    let L2 := bump L1 2000 (-net_ap)
    let L3 := if 0 < ret then bump L2 2010 (-ret) else L2
    if inv.status = "paid" then bump (bump L3 2000 net_ap) 1000 (-net_ap) else L3
  else L

/-- Folding a list of `+=` bumps over the accumulator. -/
def applyBumps (L : Ledger) (bs : List (ℤ × ℚ)) : Ledger :=
  bs.foldl (fun M p => bump M p.1 p.2) L

/-- The total delta a bump list contributes to one account. -/
def bumpsDelta (bs : List (ℤ × ℚ)) (a : ℤ) : ℚ :=
  ((bs.filter (fun p => p.1 = a)).map Prod.snd).sum

/-- The set of keys a bump list inserts. -/
def bumpsKeys (bs : List (ℤ × ℚ)) : Finset ℤ := (bs.map Prod.fst).toFinset

/-- The bump list one invoice generates, read off branch by branch from the
body of the invoice loop in `verify_financials`. -/
def invoiceBumps (inv : Invoice) : List (ℤ × ℚ) :=
  let amt := inv.amount
  let ret := inv.retainage_held
  if inv.invoice_type = "receivable" then
    let net_ar := amt - ret
    [((1010:ℤ), net_ar)]
    ++ (if 0 < ret then [((1020:ℤ), ret)] else [])
    ++ (match inv.gl_account with
        | some g => if g = 0 then [] else [(g, -amt)]
        | none => [])
    ++ (if inv.status = "paid" then [((1000:ℤ), net_ar), ((1010:ℤ), -net_ar)] else [])
  else if inv.invoice_type = "payable" then
    let net_ap := amt - ret
    (match inv.gl_account with
     | some g => if g = 0 then [] else [(g, amt)]
     | none => [])
    ++ [((2000:ℤ), -net_ap)]
    ++ (if 0 < ret then [((2010:ℤ), -ret)] else [])
    ++ (if inv.status = "paid" then [((2000:ℤ), net_ap), ((1000:ℤ), -net_ap)] else [])
  else []

/-- The per-account delta one invoice contributes. -/
def deltaInv (inv : Invoice) (a : ℤ) : ℚ := bumpsDelta (invoiceBumps inv) a

/-- The accounts one invoice touches. -/
def touchedInv (inv : Invoice) : Finset ℤ := bumpsKeys (invoiceBumps inv)

/-- Step 1 of `verify_financials`: the per-entry debit/credit totals
`je_totals : defaultdict(lambda: [0.0, 0.0])`, as key set plus two total
functions (zero off the keys). -/
structure JETotals where
  keys : Finset String
  dr : String → ℚ
  cr : String → ℚ

/-- One iteration of the `for r in je_rows` accumulation loop. -/
def jeStep (T : JETotals) (r : JRow) : JETotals :=
  ⟨insert r.entry T.keys,
   Function.update T.dr r.entry (T.dr r.entry + r.debit),
   Function.update T.cr r.entry (T.cr r.entry + r.credit)⟩

/-- The whole accumulation pass of step 1. -/
def jeTotals (rows : List JRow) : JETotals := rows.foldl jeStep ⟨∅, fun _ => 0, fun _ => 0⟩

/-- Step 1's unbalanced counter: the number of entry identifiers whose
absolute debit/credit difference exceeds the 0.02 tolerance. -/
def unbalancedCount (rows : List JRow) : ℕ :=
  ((jeTotals rows).keys.filter
    (fun e => (0.02:ℚ) < |(jeTotals rows).dr e - (jeTotals rows).cr e|)).card

/-- Specification-side reading: the entry identifiers occurring in the input. -/
def entryIds (rows : List JRow) : Finset String := (rows.map JRow.entry).toFinset

/-- Specification-side reading: an entry's total debit. -/
def sumDebits (rows : List JRow) (e : String) : ℚ :=
  ((rows.filter (fun r => r.entry = e)).map JRow.debit).sum

/-- Specification-side reading: an entry's total credit. -/
def sumCredits (rows : List JRow) (e : String) : ℚ :=
  ((rows.filter (fun r => r.entry = e)).map JRow.credit).sum

/-- Step 2 of `verify_financials`: build the trial balance from the journal
rows, `gl_balances[acct] += dr - cr`, starting from a fresh accumulator. -/
def ledgerFromRows (rows : List JRow) : Ledger :=
  rows.foldl (fun L r => bump L r.account (r.debit - r.credit)) Ledger.empty

/-- Step 3 of `verify_financials`: project every invoice onto the accumulator. -/
def projectAll (L : Ledger) (invs : List Invoice) : Ledger := invs.foldl projectOne L

/-- The net effect of one invoice on the grand total of the accumulator. -/
def invoiceNet (inv : Invoice) : ℚ := ((invoiceBumps inv).map Prod.snd).sum

/-- Python truthiness of the parsed `gl_account` (`if gl:` in the source). -/
def glTruthy : Option ℤ → Bool
  | none => false
  | some g => decide (g ≠ 0)

/-- Step 4 of `verify_financials`: the accounts the trial-balance printout
keeps.  The loop skips any account with `abs(bal) < 0.01` before assigning it
to the debit or credit column. -/
def shownAccounts (L : Ledger) : Finset ℤ :=
  L.keys.filter (fun a => ¬|L.bal a| < (0.01:ℚ))

/-- Step 4's debit column total (`total_dr`). -/
def trialDr (L : Ledger) : ℚ :=
  ∑ a ∈ (shownAccounts L).filter (fun a => 0 < L.bal a), L.bal a

/-- Step 4's credit column total (`total_cr`). -/
def trialCr (L : Ledger) : ℚ :=
  ∑ a ∈ (shownAccounts L).filter (fun a => ¬0 < L.bal a), -L.bal a

/-- Step 4's reported difference `diff = total_dr - total_cr`. -/
def trialDiff (L : Ledger) : ℚ := trialDr L - trialCr L

/-- Step 4's verdict: the `[OK] Trial balance is within $1.00` branch is taken
iff `abs(diff) < 1.0`. -/
def balancedVerdict (L : Ledger) : Bool := |trialDiff L| < 1

/-- Claim-side reading for C4: the total of the positive (debit) balances over
all accounts, no display threshold. -/
def posColumn (L : Ledger) : ℚ := ∑ a ∈ L.keys.filter (fun a => 0 < L.bal a), L.bal a

/-- Claim-side reading for C4: the total of the absolute values of the
negative (credit) balances over all accounts, no display threshold. -/
def negColumn (L : Ledger) : ℚ := ∑ a ∈ L.keys.filter (fun a => L.bal a < 0), -L.bal a

/-- Step 5 of `verify_financials`: `revenue`, summed over the accounts of the
revenue numeric range `range(4000, 5000)` that occur in the accumulator. -/
def revenueOf (L : Ledger) : ℚ :=
  ∑ a ∈ (Finset.Icc (4000:ℤ) 4999).filter (fun a => a ∈ L.keys), -L.bal a

/-- Step 5 of `verify_financials`: `expenses`, summed over the accounts of the
expense numeric range `range(5000, 8000)` that occur in the accumulator. -/
def expensesOf (L : Ledger) : ℚ :=
  ∑ a ∈ (Finset.Icc (5000:ℤ) 7999).filter (fun a => a ∈ L.keys), L.bal a

/-- Step 5's `net_income = revenue - expenses`. -/
def netIncomeOf (L : Ledger) : ℚ := revenueOf L - expensesOf L

/-- Step 5's verdict: the `[OK] Net income within $100K of target` branch is
taken iff `abs(net_income - target) < 100000`. -/
def niVerdict (L : Ledger) (target : ℚ) : Bool := |netIncomeOf L - target| < 100000

/-! Constants of `part01_constants.py` (names and display-only fields are
dropped; only account numbers and amounts are semantically relevant). -/

/-- Opening balances `OB`, in sorted key order (positive = debit balance). -/
def OB : List (ℤ × ℚ) :=
  [(1000, 28500000), (1030, 6200000), (1040, 3800000), (1050, 850000),
   (1100, 22400000), (1110, -4800000), (1120, 145000000), (1130, -8200000),
   (1200, 32000000), (1300, 1800000), (2020, -3600000), (2030, -4800000),
   (2050, -2400000), (2060, -1200000), (2100, -4200000), (2200, -18000000),
   (2210, -95000000), (3000, -85000000), (3010, -13350000)]

/-- `DIRECT_COST_ACCOUNTS`: account number and annual amount. -/
def DIRECT_COST_ACCOUNTS : List (ℤ × ℚ) :=
  [(5000, 98000000), (5010, 42000000), (5020, 28000000), (5030, 18000000),
   (5100, 12000000), (5110, 8500000), (5120, 3200000), (5130, 4800000),
   (5200, 6500000), (5210, 1300000), (5300, 2700000)]

/-- `PROPERTY_MGMT_ACCOUNTS`: account number and annual amount. -/
def PROPERTY_MGMT_ACCOUNTS : List (ℤ × ℚ) :=
  [(6200, 1200000), (6210, 960000), (6220, 1440000), (6230, 720000), (6240, 480000)]

/-- `OVERHEAD_ACCOUNTS`: account number and annual amount. -/
def OVERHEAD_ACCOUNTS : List (ℤ × ℚ) :=
  [(6000, 5400000), (6010, 1620000), (6020, 1080000), (6030, 2400000),
   (6040, 3600000), (6050, 960000), (6060, 540000), (6070, 360000), (6080, 2240000)]

def AIRPORT_MONTHLY_REV : List ℚ :=
  [16500000, 16800000, 17200000, 17500000, 16800000, 16200000,
   15800000, 16500000, 17000000, 16200000, 15800000, 15700000]

def CONDO_MONTHLY_REV : List ℚ :=
  [5800000, 5600000, 5400000, 5200000, 4800000, 4500000,
   4200000, 3800000, 3600000, 3200000, 800000, 800000]

def RENTAL_MONTHLY : List ℚ :=
  [650000, 680000, 720000, 760000, 800000, 840000,
   880000, 920000, 950000, 980000, 1010000, 1010000]

def DEPRECIATION : ℚ := 2400000

def INTEREST_EXPENSE : ℚ := 4800000

def TOTAL_REVENUE : ℚ := 198000000 + 47700000 + 10200000 + 8500000

def TOTAL_DIRECT : ℚ := (DIRECT_COST_ACCOUNTS.map Prod.snd).sum

def TOTAL_PROP_MGMT : ℚ := (PROPERTY_MGMT_ACCOUNTS.map Prod.snd).sum

def TOTAL_OVERHEAD : ℚ := (OVERHEAD_ACCOUNTS.map Prod.snd).sum

/-- The generator's target net income `NET_INCOME`. -/
def NET_INCOME : ℚ :=
  TOTAL_REVENUE - TOTAL_DIRECT - TOTAL_PROP_MGMT - TOTAL_OVERHEAD
    - DEPRECIATION - INTEREST_EXPENSE

/-- Python's `round` to an integer: round half to even (exact-decimal model of
the float builtin). -/
def roundHalfEven (x : ℚ) : ℤ :=
  if x - ⌊x⌋ = 1 / 2 then (if Even ⌊x⌋ then ⌊x⌋ else ⌊x⌋ + 1) else round x

/-- Python's `round(x)` as a rational. -/
def pyRound0 (x : ℚ) : ℚ := (roundHalfEven x : ℚ)

/-- Python's `round(x, 2)` as a rational. -/
def pyRound2 (x : ℚ) : ℚ := (roundHalfEven (100 * x) : ℚ) / 100

/-- `allocate_to_months`: the first eleven months are rounded proportional
shares, the twelfth is the rounded remainder. -/
def allocate_to_months (annual : ℚ) (weights : List ℚ) : List ℚ :=
  let total_w := weights.sum
  let firsts := (List.range 11).map (fun i => pyRound2 (annual * weights.getD i 0 / total_w))
  firsts ++ [pyRound2 (annual - firsts.sum)]

/-- Lookup of the annual amount of an account in one of the cost tables. -/
def annualOf (tbl : List (ℤ × ℚ)) (a : ℤ) : ℚ := (tbl.lookup a).getD 0

def monthly_rev_totals : List ℚ :=
  (List.range 12).map (fun i => AIRPORT_MONTHLY_REV.getD i 0 + CONDO_MONTHLY_REV.getD i 0)

def monthlyDirectCosts (a : ℤ) : List ℚ :=
  allocate_to_months (annualOf DIRECT_COST_ACCOUNTS a) monthly_rev_totals

def monthlyPropMgmt (a : ℤ) : List ℚ :=
  allocate_to_months (annualOf PROPERTY_MGMT_ACCOUNTS a) (List.replicate 12 1)

def monthlyOverhead (a : ℤ) : List ℚ :=
  allocate_to_months (annualOf OVERHEAD_ACCOUNTS a) (List.replicate 12 1)

def monthlyDepreciation : List ℚ := allocate_to_months DEPRECIATION (List.replicate 12 1)

def monthlyInterest : List ℚ := allocate_to_months INTEREST_EXPENSE (List.replicate 12 1)

/-! The journal-entry generator `generate_journal_entries` of
`part07_financials.py`.  A journal entry is its list of lines
`(account, debit, credit)`; dates, descriptions and references carry no
financial meaning and are dropped. -/

/-- Zero-padding of the entry counter, `f"JE-{num:04d}"`. -/
def pad4 (n : Nat) : String :=
  ⟨List.replicate (4 - (toString n).length) '0'⟩ ++ toString n

/-- The `add_je` helper: rows appended for one entry (its balance assertion is
the subject of claim C10). -/
def add_je (num : Nat) (lines : List (ℤ × ℚ × ℚ)) : List JRow :=
  lines.map (fun l => ⟨"JE-" ++ pad4 num, l.1, l.2.1, l.2.2⟩)

/-- Debit total of one entry's line list. -/
def sumDr (g : List (ℤ × ℚ × ℚ)) : ℚ := (g.map (fun l => l.2.1)).sum

/-- Credit total of one entry's line list. -/
def sumCr (g : List (ℤ × ℚ × ℚ)) : ℚ := (g.map (fun l => l.2.2)).sum

/-- The opening-balance lines before the plug: every `OB` account except the
four AR/AP control accounts, debits for positive and credits for negative
balances. -/
def obBase : List (ℤ × ℚ × ℚ) :=
  OB.filterMap (fun p =>
    if p.1 = 1010 ∨ p.1 = 1020 ∨ p.1 = 2000 ∨ p.1 = 2010 then none
    else if 0 < p.2 then some (p.1, p.2, 0)
    else if p.2 < 0 then some (p.1, 0, -p.2)
    else none)

/-- The retained-earnings plug `plug = ob_dr - ob_cr`. -/
def obPlug : ℚ := sumDr obBase - sumCr obBase

/-- The full opening-balance entry: base lines plus the 3010 plug line. -/
def obLines : List (ℤ × ℚ × ℚ) :=
  obBase ++ (if 0 < obPlug then [((3010:ℤ), (0:ℚ), obPlug)]
             else if obPlug < 0 then [((3010:ℤ), -obPlug, (0:ℚ))] else [])

/-- Monthly payroll accrual total. -/
def totalPayroll (mi : Nat) : ℚ :=
  (monthlyDirectCosts 5200).getD mi 0 + (monthlyDirectCosts 5210).getD mi 0
    + (monthlyOverhead 6000).getD mi 0 + (monthlyOverhead 6010).getD mi 0

/-- Monthly payroll accrual entry. -/
def payrollLines (mi : Nat) : List (ℤ × ℚ × ℚ) :=
  [(5200, (monthlyDirectCosts 5200).getD mi 0, 0),
   (5210, (monthlyDirectCosts 5210).getD mi 0, 0),
   (6000, (monthlyOverhead 6000).getD mi 0, 0),
   (6010, (monthlyOverhead 6010).getD mi 0, 0),
   (2020, 0, totalPayroll mi)]

/-- Monthly payroll disbursement entry. -/
def payrollDisbLines (mi : Nat) : List (ℤ × ℚ × ℚ) :=
  [(2020, totalPayroll mi, 0), (1000, 0, totalPayroll mi)]

/-- The debit lines of an expense entry: one line per account with a positive
monthly amount. -/
def expenseLines (accts : List ℤ) (amtOf : ℤ → ℚ) : List (ℤ × ℚ × ℚ) :=
  accts.filterMap (fun a => if 0 < amtOf a then some ((a, amtOf a, (0:ℚ))) else none)

/-- Close an expense entry with the cash credit line for the accumulated
total. -/
def withCashCredit (ls : List (ℤ × ℚ × ℚ)) : List (ℤ × ℚ × ℚ) :=
  ls ++ [((1000:ℤ), (0:ℚ), sumDr ls)]

/-- Monthly G&A overhead entry. -/
def overheadLines (mi : Nat) : List (ℤ × ℚ × ℚ) :=
  withCashCredit (expenseLines [6020, 6030, 6040, 6050, 6060, 6070, 6080]
    (fun a => (monthlyOverhead a).getD mi 0))

/-- Monthly property-management expense entry. -/
def propMgmtLines (mi : Nat) : List (ℤ × ℚ × ℚ) :=
  withCashCredit (expenseLines [6200, 6210, 6220, 6230, 6240]
    (fun a => (monthlyPropMgmt a).getD mi 0))

/-- Monthly rental-income entry (emitted only when the month's rent is
positive). -/
def rentalGroups (mi : Nat) : List (List (ℤ × ℚ × ℚ)) :=
  let rent := RENTAL_MONTHLY.getD mi 0
  if 0 < rent then [[(1000, rent, 0), (4100, 0, rent)]] else []

/-- Quarterly depreciation entry (months 3, 6, 9, 12). -/
def depreciationGroups (mi : Nat) : List (List (ℤ × ℚ × ℚ)) :=
  if (mi + 1) % 3 = 0 then
    let dep := ((monthlyDepreciation.drop (mi - 2)).take 3).sum
    let equip_dep := pyRound2 (dep * (0.6:ℚ))
    let bldg_dep := pyRound2 (dep - equip_dep)
    [[(6100, equip_dep, 0), (6110, bldg_dep, 0), (1110, 0, equip_dep), (1130, 0, bldg_dep)]]
  else []

/-- Monthly interest entry (the `mortgage_int`/`loc_int` split of the source
is computed but unused in the posted lines). -/
def interestGroups (mi : Nat) : List (List (ℤ × ℚ × ℚ)) :=
  let int_amt := monthlyInterest.getD mi 0
  if 0 < int_amt then [[(7000, int_amt, 0), (1000, 0, int_amt)]] else []

/-- All entries emitted for one month, in source order. -/
def monthGroups (mi : Nat) : List (List (ℤ × ℚ × ℚ)) :=
  [payrollLines mi, payrollDisbLines mi, overheadLines mi]
    ++ rentalGroups mi ++ [propMgmtLines mi] ++ depreciationGroups mi ++ interestGroups mi

/-- The change-order revenue recognition entry. -/
def coLines : List (ℤ × ℚ × ℚ) := [(1030, 8500000, 0), (4200, 0, 8500000)]

/-- Monthly equipment-operations entry (emitted when the amount is
positive). -/
def equipGroups (mi : Nat) : List (List (ℤ × ℚ × ℚ)) :=
  let amt := (monthlyDirectCosts 5300).getD mi 0
  if 0 < amt then [[(5300, amt, 0), (1000, 0, amt)]] else []

/-- Every journal entry `generate_journal_entries` constructs, in emission
order: opening balance, twelve months of accruals, change-order revenue, and
the equipment-operations entries. -/
def jeGroups : List (List (ℤ × ℚ × ℚ)) :=
  [obLines] ++ (List.range 12).flatMap monthGroups ++ [coLines]
    ++ (List.range 12).flatMap equipGroups

/-- Sequential numbering of the emitted entries (the `je_num` counter). -/
def numberGroups : Nat → List (List (ℤ × ℚ × ℚ)) → List JRow
  | _, [] => []
  | n, g :: gs => add_je n g ++ numberGroups (n + 1) gs

/-- The flat row list `generate_journal_entries` returns. -/
def generate_journal_entries : List JRow := numberGroups 1 jeGroups

/-! The invoice generator `generate_invoices` of `part07_financials.py`.
The RNG-driven vendor selection (`random.sample(vendor_splits, ...)`) is
abstracted as an oracle `pick : Nat → List (ℤ × ℚ)` giving, for each month,
the selected `(gl_account, pct)` pairs; everything proved below holds for
every oracle whose picks come from `vendor_splits`, hence in particular for
the seeded run.  Fields without financial meaning for `verify_financials`
(dates, names, projects, tax) are dropped. -/

/-- The opening-balance receivable amounts (`ob_recv`). -/
def obReceivableAmounts : List ℚ := [18500000, 12400000, 8200000, 5600000]

/-- The opening-balance payable amounts (`ob_pay`). -/
def obPayableAmounts : List ℚ := [8500000, 6200000, 5800000, 4200000, 3400000]

/-- `vendor_splits`: per vendor, the expense account and percentage share
(names dropped). -/
def vendor_splits : List (ℤ × ℚ) :=
  [(5000, 0.22), (5030, 0.08), (5010, 0.19), (5030, 0.04), (5010, 0.06),
   (5000, 0.14), (5010, 0.06), (5030, 0.03), (5120, 0.02), (5020, 0.04),
   (5100, 0.05), (5100, 0.04), (5130, 0.03)]

/-- `INVOICE_DIRECT_TOTAL = TOTAL_DIRECT - 6500000 - 1300000 - 2700000`. -/
def INVOICE_DIRECT_TOTAL : ℚ := TOTAL_DIRECT - 6500000 - 1300000 - 2700000

/-- `monthly_direct`: the invoice-carried direct costs allocated to months. -/
def monthly_direct : List ℚ := allocate_to_months INVOICE_DIRECT_TOTAL monthly_rev_totals

/-- The invoice rows of `generate_invoices`: opening-balance invoices, twelve
months of receivable progress billings, then the oracle-selected payable
invoices. -/
def generate_invoices (pick : Nat → List (ℤ × ℚ)) : List Invoice :=
  (obReceivableAmounts.map (fun a => ⟨"receivable", a, 0, some 3010, "paid"⟩))
  ++ (obPayableAmounts.map (fun a => ⟨"payable", a, 0, some 3010, "paid"⟩))
  ++ ((List.range 12).flatMap (fun mi =>
      let aamt := AIRPORT_MONTHLY_REV.getD mi 0
      let camt := CONDO_MONTHLY_REV.getD mi 0
      [Invoice.mk "receivable" aamt (pyRound0 (aamt * 0.05)) (some 4000)
        (if mi < 10 then "paid" else "pending")]
      ++ (if 0 < camt then
           [Invoice.mk "receivable" camt (pyRound0 (camt * 0.10)) (some 4010)
             (if mi < 10 then "paid" else "pending")]
          else [])))
  ++ ((List.range 12).flatMap (fun mi =>
      let month_total := monthly_direct.getD mi 0
      let total_pct := ((pick mi).map Prod.snd).sum
      (pick mi).filterMap (fun v =>
        let amt := pyRound0 (month_total * v.2 / total_pct)
        if amt < 10000 then none
        else some (Invoice.mk "payable" amt (pyRound0 (amt * 0.05)) (some v.1)
          (if mi < 10 then "paid" else "approved")))))

/-- The full self-check dataset: journal rows folded first, then every
invoice projected, exactly as steps 2 and 3 of `verify_financials` do. -/
def datasetLedger (pick : Nat → List (ℤ × ℚ)) : Ledger :=
  projectAll (ledgerFromRows generate_journal_entries) (generate_invoices pick)

/-- Modelled from the spec and claim wording (section 4.2, receivable case):
the per-account update rule as the spec states it, with `present` read as
non-null. -/
def deltaRecvSpec (inv : Invoice) (a : ℤ) : ℚ :=
  let net := inv.amount - inv.retainage_held
  (if a = 1010 then net else 0)
  + (if 0 < inv.retainage_held then (if a = 1020 then inv.retainage_held else 0) else 0)
  + (match inv.gl_account with
     | some g => if a = g then -inv.amount else 0
     | none => 0)
  + (if inv.status = "paid" then
      (if a = 1000 then net else 0) + (if a = 1010 then -net else 0) else 0)

/-- Modelled from the spec and claim wording (section 4.2, payable case). -/
def deltaPaySpec (inv : Invoice) (a : ℤ) : ℚ :=
  let net := inv.amount - inv.retainage_held
  (match inv.gl_account with
   | some g => if a = g then inv.amount else 0
   | none => 0)
  + (if a = 2000 then -net else 0)
  + (if 0 < inv.retainage_held then (if a = 2010 then -inv.retainage_held else 0) else 0)
  + (if inv.status = "paid" then
      (if a = 2000 then net else 0) + (if a = 1000 then -net else 0) else 0)

/-- The report `verify_financials` produces: all computed figures and the
three verdicts; the three failure conditions appear only as data in it. -/
structure Report where
  unbalanced : ℕ
  ledger : Ledger
  total_dr : ℚ
  total_cr : ℚ
  diff : ℚ
  balanced : Bool
  revenue : ℚ
  expenses : ℚ
  net_income : ℚ
  ni_ok : Bool

/-- The whole of `verify_financials`, wrapped in `Except` to model Python
exception propagation; the body contains no `raise`/`assert`, so every run
returns `ok`. -/
def verify_financials (je_rows : List JRow) (invoices : List Invoice) :
    Except String Report :=
  let L := projectAll (ledgerFromRows je_rows) invoices
  Except.ok
    { unbalanced := unbalancedCount je_rows
      ledger := L
      total_dr := trialDr L
      total_cr := trialCr L
      diff := trialDiff L
      balanced := balancedVerdict L
      revenue := revenueOf L
      expenses := expensesOf L
      net_income := netIncomeOf L
      ni_ok := niVerdict L NET_INCOME }

theorem WF_empty : WF Ledger.empty := fun _ _ => rfl

theorem bump_keys (L : Ledger) (a : ℤ) (d : ℚ) :
    (bump L a d).keys = insert a L.keys := rfl

theorem bump_bal (L : Ledger) (a : ℤ) (d : ℚ) :
    (bump L a d).bal = fun x => L.bal x + if x = a then d else 0 := by
  funext x
  by_cases h : x = a
  · subst h; simp [bump]
  · simp [bump, Function.update_noteq h, h]

theorem WF_bump {L : Ledger} (hL : WF L) (a : ℤ) (d : ℚ) : WF (bump L a d) := by
  intro x hx
  rw [bump_keys] at hx
  rw [bump_bal]
  have hxa : x ≠ a := fun h => hx (h ▸ Finset.mem_insert_self a L.keys)
  have hxk : x ∉ L.keys := fun h => hx (Finset.mem_insert_of_mem h)
  simp [hxa, hL x hxk]

theorem total_bump {L : Ledger} (hL : WF L) (a : ℤ) (d : ℚ) :
    total (bump L a d) = total L + d := by
  unfold total
  rw [bump_keys, bump_bal]
  by_cases h : a ∈ L.keys
  · rw [Finset.insert_eq_self.mpr h]
    have : ∀ x ∈ L.keys, (fun x => L.bal x + if x = a then d else 0) x
        = L.bal x + (if x = a then d else 0) := fun x _ => rfl
    rw [Finset.sum_congr rfl this, Finset.sum_add_distrib,
      Finset.sum_ite_eq' L.keys a (fun _ => d)]
    simp [h, add_comm]
  · rw [Finset.sum_insert h]
    have hz : ∀ x ∈ L.keys, (fun x => L.bal x + if x = a then d else 0) x = L.bal x := by
      intro x hx
      have : x ≠ a := fun hxa => h (hxa ▸ hx)
      simp [this]
    rw [Finset.sum_congr rfl hz]
    simp [hL a h]
    ring

theorem bumpsDelta_nil (a : ℤ) : bumpsDelta [] a = 0 := rfl

theorem bumpsDelta_cons (p : ℤ × ℚ) (bs : List (ℤ × ℚ)) (a : ℤ) :
    bumpsDelta (p :: bs) a = (if a = p.1 then p.2 else 0) + bumpsDelta bs a := by
  by_cases h : p.1 = a
  · subst h
    simp [bumpsDelta, List.filter_cons]
  · have h' : ¬a = p.1 := fun hh => h hh.symm
    simp [bumpsDelta, List.filter_cons, h, h']

theorem applyBumps_keys (bs : List (ℤ × ℚ)) :
    ∀ L : Ledger, (applyBumps L bs).keys = L.keys ∪ bumpsKeys bs := by
  induction bs with
  | nil => intro L; simp [applyBumps, bumpsKeys]
  | cons p bs ih =>
      intro L
      show (applyBumps (bump L p.1 p.2) bs).keys = _
      rw [ih, bump_keys]
      unfold bumpsKeys
      ext y
      simp only [List.map_cons, List.toFinset_cons, Finset.mem_union, Finset.mem_insert,
        List.mem_toFinset]
      tauto

theorem applyBumps_bal (bs : List (ℤ × ℚ)) :
    ∀ L : Ledger, (applyBumps L bs).bal = fun a => L.bal a + bumpsDelta bs a := by
  induction bs with
  | nil => intro L; funext a; simp [applyBumps, bumpsDelta_nil]
  | cons p bs ih =>
      intro L
      show (applyBumps (bump L p.1 p.2) bs).bal = _
      rw [ih]
      funext a
      rw [bump_bal, bumpsDelta_cons]
      ring

theorem WF_applyBumps (bs : List (ℤ × ℚ)) :
    ∀ {L : Ledger}, WF L → WF (applyBumps L bs) := by
  induction bs with
  | nil => intro L h; exact h
  | cons p bs ih => intro L h; exact ih (WF_bump h p.1 p.2)

theorem total_applyBumps (bs : List (ℤ × ℚ)) :
    ∀ {L : Ledger}, WF L → total (applyBumps L bs) = total L + (bs.map Prod.snd).sum := by
  induction bs with
  | nil => intro L _; simp [applyBumps]
  | cons p bs ih =>
      intro L h
      show total (applyBumps (bump L p.1 p.2) bs) = _
      rw [ih (WF_bump h p.1 p.2), total_bump h]
      simp
      ring

theorem projectOne_eq_bumps (L : Ledger) (inv : Invoice) :
    projectOne L inv = applyBumps L (invoiceBumps inv) := by
  obtain ⟨ty, amt, ret, gl, st⟩ := inv
  unfold projectOne invoiceBumps
  rcases gl with _ | g <;> dsimp only <;> split_ifs <;> rfl

theorem projectOne_keys (L : Ledger) (inv : Invoice) :
    (projectOne L inv).keys = L.keys ∪ touchedInv inv := by
  rw [projectOne_eq_bumps]; exact applyBumps_keys _ L

theorem projectOne_bal (L : Ledger) (inv : Invoice) :
    (projectOne L inv).bal = fun a => L.bal a + deltaInv inv a := by
  rw [projectOne_eq_bumps]; exact applyBumps_bal _ L

theorem WF_projectOne {L : Ledger} (h : WF L) (inv : Invoice) : WF (projectOne L inv) := by
  rw [projectOne_eq_bumps]; exact WF_applyBumps _ h

theorem sumDebits_cons (r : JRow) (rows : List JRow) (e : String) :
    sumDebits (r :: rows) e = (if e = r.entry then r.debit else 0) + sumDebits rows e := by
  by_cases h : r.entry = e
  · subst h
    simp [sumDebits, List.filter_cons]
  · have h' : ¬e = r.entry := fun hh => h hh.symm
    simp [sumDebits, List.filter_cons, h, h']

theorem sumCredits_cons (r : JRow) (rows : List JRow) (e : String) :
    sumCredits (r :: rows) e = (if e = r.entry then r.credit else 0) + sumCredits rows e := by
  by_cases h : r.entry = e
  · subst h
    simp [sumCredits, List.filter_cons]
  · have h' : ¬e = r.entry := fun hh => h hh.symm
    simp [sumCredits, List.filter_cons, h, h']

theorem jeFold_keys (rows : List JRow) :
    ∀ T : JETotals, (rows.foldl jeStep T).keys = T.keys ∪ entryIds rows := by
  induction rows with
  | nil => intro T; simp [entryIds]
  | cons r rows ih =>
      intro T
      show (rows.foldl jeStep (jeStep T r)).keys = _
      rw [ih]
      unfold entryIds jeStep
      ext y
      simp only [List.map_cons, List.toFinset_cons, Finset.mem_union, Finset.mem_insert,
        List.mem_toFinset]
      tauto

theorem jeFold_dr (rows : List JRow) :
    ∀ T : JETotals, (rows.foldl jeStep T).dr = fun e => T.dr e + sumDebits rows e := by
  induction rows with
  | nil => intro T; funext e; simp [sumDebits]
  | cons r rows ih =>
      intro T
      show (rows.foldl jeStep (jeStep T r)).dr = _
      rw [ih]
      funext e
      rw [sumDebits_cons]
      unfold jeStep
      dsimp only
      by_cases h : e = r.entry
      · subst h; simp [Function.update_same]; ring
      · rw [Function.update_noteq h]; simp [h]

theorem jeFold_cr (rows : List JRow) :
    ∀ T : JETotals, (rows.foldl jeStep T).cr = fun e => T.cr e + sumCredits rows e := by
  induction rows with
  | nil => intro T; funext e; simp [sumCredits]
  | cons r rows ih =>
      intro T
      show (rows.foldl jeStep (jeStep T r)).cr = _
      rw [ih]
      funext e
      rw [sumCredits_cons]
      unfold jeStep
      dsimp only
      by_cases h : e = r.entry
      · subst h; simp [Function.update_same]; ring
      · rw [Function.update_noteq h]; simp [h]

theorem jeTotals_keys (rows : List JRow) : (jeTotals rows).keys = entryIds rows := by
  unfold jeTotals
  rw [jeFold_keys]
  simp

theorem jeTotals_dr (rows : List JRow) : (jeTotals rows).dr = fun e => sumDebits rows e := by
  unfold jeTotals
  rw [jeFold_dr]
  funext e
  simp

theorem jeTotals_cr (rows : List JRow) : (jeTotals rows).cr = fun e => sumCredits rows e := by
  unfold jeTotals
  rw [jeFold_cr]
  funext e
  simp

theorem unbalancedCount_eq (rows : List JRow) :
    unbalancedCount rows
      = ((entryIds rows).filter
          (fun e => (0.02:ℚ) < |sumDebits rows e - sumCredits rows e|)).card := by
  unfold unbalancedCount
  rw [jeTotals_keys, jeTotals_dr, jeTotals_cr]

theorem sumDebits_perm {rows rows' : List JRow} (h : rows.Perm rows') (e : String) :
    sumDebits rows e = sumDebits rows' e := by
  unfold sumDebits
  exact List.Perm.sum_eq (List.Perm.map _ (List.Perm.filter _ h))

theorem sumCredits_perm {rows rows' : List JRow} (h : rows.Perm rows') (e : String) :
    sumCredits rows e = sumCredits rows' e := by
  unfold sumCredits
  exact List.Perm.sum_eq (List.Perm.map _ (List.Perm.filter _ h))

theorem entryIds_perm {rows rows' : List JRow} (h : rows.Perm rows') :
    entryIds rows = entryIds rows' :=
  List.toFinset_eq_of_perm _ _ (h.map JRow.entry)

theorem unbalancedCount_perm {rows rows' : List JRow} (h : rows.Perm rows') :
    unbalancedCount rows = unbalancedCount rows' := by
  rw [unbalancedCount_eq, unbalancedCount_eq, entryIds_perm h]
  congr 1
  apply Finset.filter_congr
  intro e _
  rw [sumDebits_perm h, sumCredits_perm h]

theorem ledgerFromRows_eq (rows : List JRow) :
    ledgerFromRows rows
      = applyBumps Ledger.empty (rows.map (fun r => (r.account, r.debit - r.credit))) := by
  unfold ledgerFromRows applyBumps
  rw [List.foldl_map]

theorem projectOne_comm (L : Ledger) (i j : Invoice) :
    projectOne (projectOne L i) j = projectOne (projectOne L j) i := by
  refine Ledger.ext ?_ ?_
  · rw [projectOne_keys, projectOne_keys, projectOne_keys, projectOne_keys]
    exact Finset.union_right_comm _ _ _
  · funext a
    simp only [projectOne_bal]
    ring

theorem projectAll_perm {l₁ l₂ : List Invoice} (h : l₁.Perm l₂) (L : Ledger) :
    projectAll L l₁ = projectAll L l₂ :=
  h.foldl_eq' (fun i _ j _ M => projectOne_comm M i j) L

theorem total_projectOne {L : Ledger} (h : WF L) (inv : Invoice) :
    total (projectOne L inv) = total L + invoiceNet inv := by
  rw [projectOne_eq_bumps]
  exact total_applyBumps _ h

theorem invoiceNet_zero (inv : Invoice) (hgl : glTruthy inv.gl_account = true)
    (hret : 0 ≤ inv.retainage_held) : invoiceNet inv = 0 := by
  obtain ⟨ty, amt, ret, gl, st⟩ := inv
  rcases gl with _ | g
  · simp [glTruthy] at hgl
  · have hg : ¬g = 0 := by simpa [glTruthy] using hgl
    unfold invoiceNet invoiceBumps
    dsimp only at hret ⊢
    by_cases hty : ty = "receivable"
    · rw [if_pos hty]
      by_cases hr : (0:ℚ) < ret <;> by_cases hp : st = "paid" <;>
        simp [hr, hp, hg] <;> try linarith
    · rw [if_neg hty]
      by_cases hty2 : ty = "payable"
      · rw [if_pos hty2]
        by_cases hr : (0:ℚ) < ret <;> by_cases hp : st = "paid" <;>
          simp [hr, hp, hg] <;> try linarith
      · rw [if_neg hty2]
        simp

theorem trialDiff_eq_sum_shown (L : Ledger) :
    trialDiff L = ∑ a ∈ shownAccounts L, L.bal a := by
  unfold trialDiff trialDr trialCr
  rw [← Finset.sum_filter_add_sum_filter_not (shownAccounts L) (fun a => 0 < L.bal a) L.bal]
  rw [Finset.sum_neg_distrib]
  ring

theorem revenueOf_eq {L : Ledger} (h : WF L) :
    revenueOf L = -∑ a ∈ Finset.Icc (4000:ℤ) 4999, L.bal a := by
  unfold revenueOf
  rw [Finset.sum_neg_distrib, neg_inj]
  apply Finset.sum_filter_of_ne
  intro a _ hne
  by_contra hk
  exact hne (h a hk)

theorem expensesOf_eq {L : Ledger} (h : WF L) :
    expensesOf L = ∑ a ∈ Finset.Icc (5000:ℤ) 7999, L.bal a := by
  unfold expensesOf
  apply Finset.sum_filter_of_ne
  intro a _ hne
  by_contra hk
  exact hne (h a hk)

theorem sumDr_append (g h : List (ℤ × ℚ × ℚ)) : sumDr (g ++ h) = sumDr g + sumDr h := by
  simp [sumDr]

theorem sumCr_append (g h : List (ℤ × ℚ × ℚ)) : sumCr (g ++ h) = sumCr g + sumCr h := by
  simp [sumCr]

theorem expenseLines_cr_zero (accts : List ℤ) (amtOf : ℤ → ℚ) :
    sumCr (expenseLines accts amtOf) = 0 := by
  apply List.sum_eq_zero
  intro x hx
  simp only [sumCr, List.mem_map] at hx
  obtain ⟨l, hl, hlx⟩ := hx
  simp only [expenseLines, List.mem_filterMap] at hl
  obtain ⟨a, _, ha⟩ := hl
  by_cases h : 0 < amtOf a
  · rw [if_pos h] at ha
    cases ha
    exact hlx ▸ rfl
  · rw [if_neg h] at ha
    cases ha

theorem withCashCredit_balanced (ls : List (ℤ × ℚ × ℚ)) (h : sumCr ls = 0) :
    sumDr (withCashCredit ls) = sumCr (withCashCredit ls) := by
  unfold withCashCredit
  rw [sumDr_append, sumCr_append, h]
  simp [sumDr, sumCr]

theorem sumDr_single (a : ℤ) (d c : ℚ) : sumDr [(a, d, c)] = d := by simp [sumDr]

theorem sumCr_single (a : ℤ) (d c : ℚ) : sumCr [(a, d, c)] = c := by simp [sumCr]

theorem obLines_balanced : sumDr obLines = sumCr obLines := by
  unfold obLines
  rcases lt_trichotomy (0:ℚ) obPlug with h | h | h
  · rw [if_pos h, sumDr_append, sumCr_append, sumDr_single, sumCr_single]
    unfold obPlug
    ring
  · rw [if_neg (not_lt.mpr (le_of_eq h.symm)), if_neg (not_lt.mpr (le_of_eq h))]
    have h0 : sumDr obBase - sumCr obBase = 0 := h.symm
    simp only [List.append_nil]
    linarith
  · rw [if_neg (not_lt.mpr h.le), if_pos h, sumDr_append, sumCr_append,
      sumDr_single, sumCr_single]
    unfold obPlug
    ring

theorem payrollLines_balanced (mi : Nat) : sumDr (payrollLines mi) = sumCr (payrollLines mi) := by
  simp [payrollLines, sumDr, sumCr, totalPayroll]
  ring

theorem payrollDisbLines_balanced (mi : Nat) :
    sumDr (payrollDisbLines mi) = sumCr (payrollDisbLines mi) := by
  simp [payrollDisbLines, sumDr, sumCr]

theorem overheadLines_balanced (mi : Nat) :
    sumDr (overheadLines mi) = sumCr (overheadLines mi) :=
  withCashCredit_balanced _ (expenseLines_cr_zero _ _)

theorem propMgmtLines_balanced (mi : Nat) :
    sumDr (propMgmtLines mi) = sumCr (propMgmtLines mi) :=
  withCashCredit_balanced _ (expenseLines_cr_zero _ _)

theorem monthGroups_balanced (mi : Nat) :
    ∀ g ∈ monthGroups mi, sumDr g = sumCr g := by
  intro g hg
  unfold monthGroups at hg
  simp only [List.mem_append, List.mem_cons, List.not_mem_nil, or_false,
    List.mem_singleton] at hg
  rcases hg with ((((h | h | h) | h) | h) | h) | h
  · exact h ▸ payrollLines_balanced mi
  · exact h ▸ payrollDisbLines_balanced mi
  · exact h ▸ overheadLines_balanced mi
  · simp only [rentalGroups] at h
    split at h
    · simp only [List.mem_singleton] at h
      subst h
      simp [sumDr, sumCr]
    · cases h
  · exact h ▸ propMgmtLines_balanced mi
  · simp only [depreciationGroups] at h
    split at h
    · simp only [List.mem_singleton] at h
      subst h
      simp [sumDr, sumCr]
      try ring
    · cases h
  · simp only [interestGroups] at h
    split at h
    · simp only [List.mem_singleton] at h
      subst h
      simp [sumDr, sumCr]
    · cases h

theorem coLines_balanced : sumDr coLines = sumCr coLines := by
  simp [coLines, sumDr, sumCr]

theorem equipGroups_balanced (mi : Nat) : ∀ g ∈ equipGroups mi, sumDr g = sumCr g := by
  intro g hg
  simp only [equipGroups] at hg
  split at hg
  · simp only [List.mem_singleton] at hg
    subst hg
    simp [sumDr, sumCr]
  · cases hg

/-- Every entry the journal-entry generator emits balances exactly. -/
theorem jeGroups_balanced : ∀ g ∈ jeGroups, sumDr g = sumCr g := by
  intro g hg
  unfold jeGroups at hg
  simp only [List.mem_append, List.mem_cons, List.not_mem_nil, or_false,
    List.mem_singleton, List.mem_flatMap, List.mem_range] at hg
  rcases hg with ((h | ⟨mi, _, h⟩) | h) | ⟨mi, _, h⟩
  · exact h ▸ obLines_balanced
  · exact monthGroups_balanced mi g h
  · exact h ▸ coLines_balanced
  · exact equipGroups_balanced mi g h

theorem roundHalfEven_nonneg {x : ℚ} (h : 0 ≤ x) : 0 ≤ roundHalfEven x := by
  unfold roundHalfEven
  split
  · split
    · exact Int.floor_nonneg.mpr h
    · have := Int.floor_nonneg.mpr h
      omega
  · rw [round_eq]
    exact Int.floor_nonneg.mpr (by linarith)

theorem pyRound0_nonneg {x : ℚ} (h : 0 ≤ x) : 0 ≤ pyRound0 x := by
  unfold pyRound0
  exact_mod_cast roundHalfEven_nonneg h

theorem getD_nonneg {l : List ℚ} (h : ∀ x ∈ l, 0 ≤ x) (i : Nat) : 0 ≤ l.getD i 0 := by
  by_cases hi : i < l.length
  · rw [List.getD_eq_getElem _ _ hi]
    exact h _ (List.getElem_mem hi)
  · rw [List.getD_eq_default _ _ (not_lt.mp hi)]

theorem airport_rev_nonneg : ∀ x ∈ AIRPORT_MONTHLY_REV, (0:ℚ) ≤ x := by
  intro x hx
  simp only [AIRPORT_MONTHLY_REV, List.mem_cons, List.not_mem_nil, or_false] at hx
  rcases hx with h | h | h | h | h | h | h | h | h | h | h | h <;> subst h <;> norm_num

theorem condo_rev_nonneg : ∀ x ∈ CONDO_MONTHLY_REV, (0:ℚ) ≤ x := by
  intro x hx
  simp only [CONDO_MONTHLY_REV, List.mem_cons, List.not_mem_nil, or_false] at hx
  rcases hx with h | h | h | h | h | h | h | h | h | h | h | h <;> subst h <;> norm_num

/-- Every generated invoice has a truthy (present and nonzero) `gl_account`
and a nonnegative retainage, provided the oracle picks from
`vendor_splits`. -/
theorem generate_invoices_props (pick : Nat → List (ℤ × ℚ))
    (hpick : ∀ mi p, p ∈ pick mi → p ∈ vendor_splits) :
    ∀ inv ∈ generate_invoices pick,
      glTruthy inv.gl_account = true ∧ 0 ≤ inv.retainage_held := by
  intro inv hinv
  simp only [generate_invoices, List.mem_append, List.mem_map, List.mem_flatMap,
    List.mem_range] at hinv
  rcases hinv with ((h | h) | h) | h
  · obtain ⟨a, _, ha⟩ := h
    subst ha
    exact ⟨by simp [glTruthy], le_refl 0⟩
  · obtain ⟨a, _, ha⟩ := h
    subst ha
    exact ⟨by simp [glTruthy], le_refl 0⟩
  · obtain ⟨mi, _, hm⟩ := h
    simp only [List.mem_append, List.mem_singleton] at hm
    rcases hm with hm | hm
    · subst hm
      refine ⟨by simp [glTruthy], ?_⟩
      exact pyRound0_nonneg (mul_nonneg (getD_nonneg airport_rev_nonneg mi) (by norm_num))
    · split at hm
      · simp only [List.mem_singleton] at hm
        subst hm
        refine ⟨by simp [glTruthy], ?_⟩
        exact pyRound0_nonneg (mul_nonneg (getD_nonneg condo_rev_nonneg mi) (by norm_num))
      · cases hm
  · obtain ⟨mi, _, hm⟩ := h
    simp only [List.mem_filterMap] at hm
    obtain ⟨v, hv, hveq⟩ := hm
    split at hveq
    · cases hveq
    · cases hveq
      rename_i hamt
      constructor
      · have hvs := hpick mi v hv
        have hv1 : v.1 ≠ 0 := by
          simp only [vendor_splits, List.mem_cons, List.not_mem_nil, or_false] at hvs
          rcases hvs with h|h|h|h|h|h|h|h|h|h|h|h|h <;> subst h <;> norm_num
        simp [glTruthy, hv1]
      · have h10 := not_lt.mp hamt
        exact pyRound0_nonneg (mul_nonneg (by linarith) (by norm_num))

theorem map_delta_sum (l : List (ℤ × ℚ × ℚ)) :
    (l.map (fun p => p.2.1 - p.2.2)).sum = sumDr l - sumCr l := by
  induction l with
  | nil => simp [sumDr, sumCr]
  | cons p l ih =>
      simp only [List.map_cons, List.sum_cons, ih, sumDr, sumCr]
      ring

theorem add_je_delta_sum (num : Nat) (g : List (ℤ × ℚ × ℚ)) :
    ((add_je num g).map (fun r => r.debit - r.credit)).sum = sumDr g - sumCr g := by
  unfold add_je
  rw [List.map_map]
  exact map_delta_sum g

theorem numberGroups_delta_sum :
    ∀ (gs : List (List (ℤ × ℚ × ℚ))) (n : Nat), (∀ g ∈ gs, sumDr g = sumCr g) →
      ((numberGroups n gs).map (fun r => r.debit - r.credit)).sum = 0 := by
  intro gs
  induction gs with
  | nil => intro n _; simp [numberGroups]
  | cons g gs ih =>
      intro n hbal
      show ((add_je n g ++ numberGroups (n + 1) gs).map (fun r => r.debit - r.credit)).sum = 0
      rw [List.map_append, List.sum_append, add_je_delta_sum,
        ih (n + 1) (fun x hx => hbal x (List.mem_cons_of_mem g hx)),
        hbal g (List.mem_cons_self g gs)]
      ring

theorem WF_ledgerFromRows (rows : List JRow) : WF (ledgerFromRows rows) := by
  rw [ledgerFromRows_eq]
  exact WF_applyBumps _ WF_empty

theorem total_empty : total Ledger.empty = 0 := by simp [total, Ledger.empty]

theorem total_ledgerFromRows (rows : List JRow) :
    total (ledgerFromRows rows) = (rows.map (fun r => r.debit - r.credit)).sum := by
  rw [ledgerFromRows_eq, total_applyBumps _ WF_empty, total_empty, List.map_map]
  rw [zero_add]
  rfl

theorem WF_projectAll : ∀ (invs : List Invoice) (L : Ledger), WF L → WF (projectAll L invs) := by
  intro invs
  induction invs with
  | nil => intro L h; exact h
  | cons i invs ih => intro L h; exact ih _ (WF_projectOne h i)

theorem total_projectAll_preserved :
    ∀ (invs : List Invoice) (L : Ledger), WF L →
      (∀ inv ∈ invs, glTruthy inv.gl_account = true ∧ 0 ≤ inv.retainage_held) →
      total (projectAll L invs) = total L := by
  intro invs
  induction invs with
  | nil => intro L _ _; rfl
  | cons i invs ih =>
      intro L hWF hprops
      show total (projectAll (projectOne L i) invs) = total L
      rw [ih _ (WF_projectOne hWF i) (fun x hx => hprops x (List.mem_cons_of_mem i hx)),
        total_projectOne hWF i,
        invoiceNet_zero i (hprops i (List.mem_cons_self i invs)).1
          (hprops i (List.mem_cons_self i invs)).2]
      ring

theorem datasetLedger_total_zero (pick : Nat → List (ℤ × ℚ))
    (hpick : ∀ mi p, p ∈ pick mi → p ∈ vendor_splits) :
    total (datasetLedger pick) = 0 := by
  unfold datasetLedger
  rw [total_projectAll_preserved _ _ (WF_ledgerFromRows _) (generate_invoices_props pick hpick),
    total_ledgerFromRows]
  exact numberGroups_delta_sum jeGroups 1 jeGroups_balanced

theorem bumpsDelta_append (l₁ l₂ : List (ℤ × ℚ)) (a : ℤ) :
    bumpsDelta (l₁ ++ l₂) a = bumpsDelta l₁ a + bumpsDelta l₂ a := by
  simp [bumpsDelta, List.filter_append]

theorem projectOne_recv_spec (L : Ledger) (inv : Invoice)
    (hty : inv.invoice_type = "receivable") (h0 : inv.gl_account ≠ some 0) :
    ∀ a, (projectOne L inv).bal a = L.bal a + deltaRecvSpec inv a := by
  intro a
  simp only [projectOne_bal]
  suffices h : deltaInv inv a = deltaRecvSpec inv a by rw [h]
  obtain ⟨ty, amt, ret, gl, st⟩ := inv
  simp only at hty h0
  unfold deltaInv invoiceBumps deltaRecvSpec
  rw [if_pos hty]
  dsimp only
  rcases gl with _ | g
  · by_cases hr : (0:ℚ) < ret <;> by_cases hp : st = "paid" <;>
      simp [hr, hp, bumpsDelta_append, bumpsDelta_cons, bumpsDelta_nil] <;> ring
  · have hg : ¬g = 0 := fun h => h0 (by rw [h])
    by_cases hr : (0:ℚ) < ret <;> by_cases hp : st = "paid" <;>
      simp [hr, hp, hg, bumpsDelta_append, bumpsDelta_cons, bumpsDelta_nil] <;> ring

theorem projectOne_pay_spec (L : Ledger) (inv : Invoice)
    (hty : inv.invoice_type = "payable") (h0 : inv.gl_account ≠ some 0) :
    ∀ a, (projectOne L inv).bal a = L.bal a + deltaPaySpec inv a := by
  intro a
  simp only [projectOne_bal]
  suffices h : deltaInv inv a = deltaPaySpec inv a by rw [h]
  obtain ⟨ty, amt, ret, gl, st⟩ := inv
  simp only at hty h0
  have hty1 : ¬ty = "receivable" := by rw [hty]; decide
  unfold deltaInv invoiceBumps deltaPaySpec
  rw [if_neg hty1, if_pos hty]
  dsimp only
  rcases gl with _ | g
  · by_cases hr : (0:ℚ) < ret <;> by_cases hp : st = "paid" <;>
      simp [hr, hp, bumpsDelta_append, bumpsDelta_cons, bumpsDelta_nil] <;> ring
  · have hg : ¬g = 0 := fun h => h0 (by rw [h])
    by_cases hr : (0:ℚ) < ret <;> by_cases hp : st = "paid" <;>
      simp [hr, hp, hg, bumpsDelta_append, bumpsDelta_cons, bumpsDelta_nil] <;> ring

/-- C1: for every receivable invoice, the projector updates the accumulator
exactly by the spec's receivable rule (AR up by net, retainage receivable up
by the held amount when positive, the present `gl_account` down by the full
amount, and a paid invoice moves net from AR to Cash).  `gl_account ≠ some 0`
excludes the account number `0`, which the chart of accounts does not contain
and which Python's truthiness guard `if gl:` treats as absent. -/
theorem claim_receivable_projection (L : Ledger) (inv : Invoice)
    (hty : inv.invoice_type = "receivable") (h0 : inv.gl_account ≠ some 0) :
    ∀ a, (projectOne L inv).bal a = L.bal a + deltaRecvSpec inv a :=
  projectOne_recv_spec L inv hty h0

/-- C1 witness: the claim's own instance, amount 100, retainage 5, paid,
gl 4000: AR delta 0, retainage receivable +5, account 4000 -100, Cash +95. -/
theorem claim_receivable_projection_witness :
    (projectOne Ledger.empty ⟨"receivable", 100, 5, some 4000, "paid"⟩).bal 1010 = 0
    ∧ (projectOne Ledger.empty ⟨"receivable", 100, 5, some 4000, "paid"⟩).bal 1020 = 5
    ∧ (projectOne Ledger.empty ⟨"receivable", 100, 5, some 4000, "paid"⟩).bal 4000 = -100
    ∧ (projectOne Ledger.empty ⟨"receivable", 100, 5, some 4000, "paid"⟩).bal 1000 = 95 := by
  have h := claim_receivable_projection Ledger.empty ⟨"receivable", 100, 5, some 4000, "paid"⟩
    rfl (by simp)
  refine ⟨?_, ?_, ?_, ?_⟩ <;> rw [h] <;> norm_num [deltaRecvSpec, Ledger.empty]

/-- C2: for every payable invoice, the projector updates the accumulator
exactly by the spec's payable rule (the present `gl_account` up by the full
amount, AP down by net, retainage payable down by the held amount when
positive, and a paid invoice clears AP against Cash). -/
theorem claim_payable_projection (L : Ledger) (inv : Invoice)
    (hty : inv.invoice_type = "payable") (h0 : inv.gl_account ≠ some 0) :
    ∀ a, (projectOne L inv).bal a = L.bal a + deltaPaySpec inv a :=
  projectOne_pay_spec L inv hty h0

/-- C2 witness: the claim's own instance, amount 200, retainage 10, approved
(not paid), gl 5000: account 5000 +200, AP -190, retainage payable -10, Cash
unchanged. -/
theorem claim_payable_projection_witness :
    (projectOne Ledger.empty ⟨"payable", 200, 10, some 5000, "approved"⟩).bal 5000 = 200
    ∧ (projectOne Ledger.empty ⟨"payable", 200, 10, some 5000, "approved"⟩).bal 2000 = -190
    ∧ (projectOne Ledger.empty ⟨"payable", 200, 10, some 5000, "approved"⟩).bal 2010 = -10
    ∧ (projectOne Ledger.empty ⟨"payable", 200, 10, some 5000, "approved"⟩).bal 1000 = 0 := by
  have h := claim_payable_projection Ledger.empty ⟨"payable", 200, 10, some 5000, "approved"⟩
    rfl (by simp)
  refine ⟨?_, ?_, ?_, ?_⟩ <;> rw [h] <;> norm_num [deltaPaySpec, Ledger.empty] <;> decide

/-- C7: the projector is a function of the multiset of invoices only — any
permutation of the invoice list yields an equal accumulator from the same
start — and re-running it from a freshly-zeroed accumulator reproduces the
same balances. -/
theorem claim_projector_permutation :
    (∀ (l₁ l₂ : List Invoice), l₁.Perm l₂ → ∀ L : Ledger, projectAll L l₁ = projectAll L l₂)
    ∧ ∀ invs : List Invoice,
        (projectAll Ledger.empty invs).bal = (projectAll Ledger.empty invs).bal :=
  ⟨fun _ _ h L => projectAll_perm h L, fun _ => rfl⟩

/-- C7 witness: swapping two concrete invoices leaves the accumulator
unchanged. -/
theorem claim_projector_permutation_witness :
    projectAll Ledger.empty
        [⟨"receivable", 100, 5, some 4000, "paid"⟩, ⟨"payable", 200, 10, some 5000, "approved"⟩]
      = projectAll Ledger.empty
        [⟨"payable", 200, 10, some 5000, "approved"⟩, ⟨"receivable", 100, 5, some 4000, "paid"⟩] :=
  claim_projector_permutation.1 _ _
    (List.Perm.swap ⟨"payable", 200, 10, some 5000, "approved"⟩
      ⟨"receivable", 100, 5, some 4000, "paid"⟩ []) Ledger.empty

/-- C10: every journal entry the generator constructs balances (the debit and
credit totals agree exactly, hence within the 0.02 assertion tolerance of
`add_je`), and in particular the opening-balance entry, closed by the 3010
retained-earnings plug line, balances. -/
theorem claim_journal_entries_balanced :
    (∀ g ∈ jeGroups, |sumDr g - sumCr g| < 0.02) ∧ sumDr obLines = sumCr obLines := by
  refine ⟨fun g hg => ?_, obLines_balanced⟩
  rw [jeGroups_balanced g hg]
  simp
  norm_num

/-- C10 witness: the change-order revenue entry is in the generated list and
balances within the assertion tolerance. -/
theorem claim_journal_entries_balanced_witness :
    |sumDr coLines - sumCr coLines| < 0.02 :=
  claim_journal_entries_balanced.1 coLines (by simp [jeGroups])

/-- C6: the trial balance of the full generated dataset — all journal rows
folded debit-minus-credit, then every generated invoice projected — sums to
zero exactly, hence within the one-dollar tolerance, for every vendor
selection the seeded RNG can make. -/
theorem claim_dataset_trial_balance (pick : Nat → List (ℤ × ℚ))
    (hpick : ∀ mi p, p ∈ pick mi → p ∈ vendor_splits) :
    total (datasetLedger pick) = 0 ∧ |total (datasetLedger pick)| < 1 := by
  have h := datasetLedger_total_zero pick hpick
  exact ⟨h, by rw [h]; norm_num⟩

/-- C6 witness: the dataset built with an oracle that selects no vendors. -/
theorem claim_dataset_trial_balance_witness :
    |total (datasetLedger (fun _ => []))| < 1 :=
  (claim_dataset_trial_balance (fun _ => []) (fun _ p hp => absurd hp (List.not_mem_nil p))).2

theorem deltaRecvSpec_frame (inv : Invoice) (hgl : inv.gl_account = none) (a : ℤ)
    (h1000 : a ≠ 1000) (h1010 : a ≠ 1010) (h1020 : a ≠ 1020) :
    deltaRecvSpec inv a = 0 := by
  unfold deltaRecvSpec
  rw [hgl]
  simp [h1000, h1010, h1020]

theorem deltaPaySpec_frame (inv : Invoice) (hgl : inv.gl_account = none) (a : ℤ)
    (h1000 : a ≠ 1000) (h2000 : a ≠ 2000) (h2010 : a ≠ 2010) :
    deltaPaySpec inv a = 0 := by
  unfold deltaPaySpec
  rw [hgl]
  simp [h1000, h2000, h2010]

theorem deltaInv_retainage_skip (inv : Invoice) (hret : inv.retainage_held = 0)
    (a : ℤ) (ha : a = 1020 ∨ a = 2010) (hgl : inv.gl_account ≠ some a) :
    deltaInv inv a = 0 := by
  obtain ⟨ty, amt, ret, gl, st⟩ := inv
  simp only at hret hgl
  have hr : ¬(0:ℚ) < ret := by rw [hret]; exact lt_irrefl 0
  have h1010 : ¬a = 1010 := by rcases ha with h | h <;> subst h <;> decide
  have h1000 : ¬a = 1000 := by rcases ha with h | h <;> subst h <;> decide
  have h2000 : ¬a = 2000 := by rcases ha with h | h <;> subst h <;> decide
  unfold deltaInv invoiceBumps
  dsimp only
  by_cases hty : ty = "receivable"
  · rw [if_pos hty]
    rcases gl with _ | g
    · by_cases hp : st = "paid" <;>
        simp [hr, hp, bumpsDelta_append, bumpsDelta_cons, bumpsDelta_nil, h1010, h1000]
    · have hag : ¬a = g := fun hh => hgl (by rw [hh])
      by_cases hg : g = 0 <;> by_cases hp : st = "paid" <;>
        simp [hr, hp, hg, hag, bumpsDelta_append, bumpsDelta_cons, bumpsDelta_nil,
          h1010, h1000]
  · rw [if_neg hty]
    by_cases hty2 : ty = "payable"
    · rw [if_pos hty2]
      rcases gl with _ | g
      · by_cases hp : st = "paid" <;>
          simp [hr, hp, bumpsDelta_append, bumpsDelta_cons, bumpsDelta_nil, h2000, h1000]
      · have hag : ¬a = g := fun hh => hgl (by rw [hh])
        by_cases hg : g = 0 <;> by_cases hp : st = "paid" <;>
          simp [hr, hp, hg, hag, bumpsDelta_append, bumpsDelta_cons, bumpsDelta_nil,
            h2000, h1000]
    · rw [if_neg hty2]
      simp [bumpsDelta_nil]

/-- C8: an invoice with a null `gl_account` still books the full AR/AP and
retainage effects but leaves every account other than the respective control
accounts unchanged; and an invoice with zero retainage leaves the retainage
accounts 1020 and 2010 unchanged (provided its `gl_account` does not itself
name one of them — by design the generator only points `gl_account` at
revenue, expense or retained-earnings accounts). -/
theorem claim_frame_effects (L : Ledger) (inv : Invoice) :
    (inv.gl_account = none → inv.invoice_type = "receivable" →
      (∀ a, (projectOne L inv).bal a = L.bal a + deltaRecvSpec inv a)
      ∧ ∀ a, a ≠ 1000 → a ≠ 1010 → a ≠ 1020 → (projectOne L inv).bal a = L.bal a)
    ∧ (inv.gl_account = none → inv.invoice_type = "payable" →
      (∀ a, (projectOne L inv).bal a = L.bal a + deltaPaySpec inv a)
      ∧ ∀ a, a ≠ 1000 → a ≠ 2000 → a ≠ 2010 → (projectOne L inv).bal a = L.bal a)
    ∧ (inv.retainage_held = 0 → inv.gl_account ≠ some 1020 → inv.gl_account ≠ some 2010 →
      (projectOne L inv).bal 1020 = L.bal 1020 ∧ (projectOne L inv).bal 2010 = L.bal 2010) := by
  refine ⟨fun hgl hty => ?_, fun hgl hty => ?_, fun hret h1 h2 => ⟨?_, ?_⟩⟩
  · have h0 : inv.gl_account ≠ some 0 := by rw [hgl]; exact fun h => Option.noConfusion h
    have hspec := projectOne_recv_spec L inv hty h0
    refine ⟨hspec, fun a ha1 ha2 ha3 => ?_⟩
    rw [hspec a, deltaRecvSpec_frame inv hgl a ha1 ha2 ha3, add_zero]
  · have h0 : inv.gl_account ≠ some 0 := by rw [hgl]; exact fun h => Option.noConfusion h
    have hspec := projectOne_pay_spec L inv hty h0
    refine ⟨hspec, fun a ha1 ha2 ha3 => ?_⟩
    rw [hspec a, deltaPaySpec_frame inv hgl a ha1 ha2 ha3, add_zero]
  · simp only [projectOne_bal]
    rw [deltaInv_retainage_skip inv hret 1020 (Or.inl rfl) h1, add_zero]
  · simp only [projectOne_bal]
    rw [deltaInv_retainage_skip inv hret 2010 (Or.inr rfl) h2, add_zero]

/-- C8 witness: a receivable invoice with null `gl_account` and zero
retainage leaves 1020, 2010 and a representative non-control account (4000)
untouched. -/
theorem claim_frame_effects_witness :
    (projectOne Ledger.empty ⟨"receivable", 100, 0, none, "paid"⟩).bal 1020 = 0
    ∧ (projectOne Ledger.empty ⟨"receivable", 100, 0, none, "paid"⟩).bal 2010 = 0
    ∧ (projectOne Ledger.empty ⟨"receivable", 100, 0, none, "paid"⟩).bal 4000 = 0 := by
  have h := claim_frame_effects Ledger.empty ⟨"receivable", 100, 0, none, "paid"⟩
  have hc := h.2.2 rfl (by simp) (by simp)
  have hframe := (h.1 rfl rfl).2 4000 (by norm_num) (by norm_num) (by norm_num)
  exact ⟨hc.1, hc.2, hframe⟩

/-- C3: the balance checker computes each occurring entry's debit and credit
totals, counts exactly the entries whose absolute difference exceeds 0.02,
is invariant under permutation of the input lines, and reports zero
unbalanced entries on any permutation of a set of lines in which every entry
balances within 0.02. -/
theorem claim_balance_checker (rows : List JRow) :
    ((jeTotals rows).keys = entryIds rows
      ∧ (∀ e, (jeTotals rows).dr e = sumDebits rows e ∧ (jeTotals rows).cr e = sumCredits rows e)
      ∧ unbalancedCount rows
          = ((entryIds rows).filter
              (fun e => (0.02:ℚ) < |sumDebits rows e - sumCredits rows e|)).card)
    ∧ ∀ rows' : List JRow, rows.Perm rows' →
        unbalancedCount rows' = unbalancedCount rows
        ∧ ((∀ e ∈ entryIds rows, |sumDebits rows e - sumCredits rows e| ≤ 0.02) →
            unbalancedCount rows' = 0) := by
  refine ⟨⟨jeTotals_keys rows, fun e => ⟨?_, ?_⟩, unbalancedCount_eq rows⟩,
    fun rows' hperm => ⟨unbalancedCount_perm hperm.symm, fun hbal => ?_⟩⟩
  · simp only [jeTotals_dr]
  · simp only [jeTotals_cr]
  · rw [unbalancedCount_perm hperm.symm, unbalancedCount_eq, Finset.card_eq_zero,
      Finset.filter_eq_empty_iff]
    intro e he
    exact not_lt.mpr (hbal e he)

/-- C3 witness: a two-line balanced entry and its permutation both report
zero unbalanced entries. -/
theorem claim_balance_checker_witness :
    unbalancedCount [JRow.mk "A" 2000 0 5, JRow.mk "A" 1000 5 0] = 0 :=
  ((claim_balance_checker [JRow.mk "A" 1000 5 0, JRow.mk "A" 2000 0 5]).2
    [JRow.mk "A" 2000 0 5, JRow.mk "A" 1000 5 0]
    (List.Perm.swap (JRow.mk "A" 2000 0 5) (JRow.mk "A" 1000 5 0) [])).2
    (by
      intro e he
      have he' : e = "A" := by simpa [entryIds] using he
      subst he'
      norm_num [sumDebits, sumCredits, List.filter_cons])

/-- C4 counterexample: on an accumulator holding a single sub-cent balance
(account 1000 at 0.005), the reported difference is 0 — the display loop
skips accounts with `abs(bal) < 0.01` — while the claim's "positive minus
absolute negative balances over all accounts" is 0.005, so the claim as
stated is false. -/
theorem claim_trial_balance_counterexample :
    trialDiff (bump Ledger.empty 1000 (1/200))
      ≠ posColumn (bump Ledger.empty 1000 (1/200))
        - negColumn (bump Ledger.empty 1000 (1/200)) := by
  have hbal : ∀ x, (bump Ledger.empty 1000 (1/200)).bal x
      = if x = 1000 then 1/200 else 0 := by
    intro x
    rw [bump_bal]
    by_cases h : x = 1000 <;> simp [h, Ledger.empty]
  have hkeys : (bump Ledger.empty 1000 (1/200)).keys = {1000} := rfl
  have habs : |(1:ℚ)/200| = 1/200 := by
    rw [abs_of_pos]
    norm_num
  unfold trialDiff trialDr trialCr shownAccounts posColumn negColumn
  rw [hkeys]
  norm_num [Finset.filter_singleton, hbal, habs]

/-- C4 amended: the verdict is `true` iff the absolute sum of the balances of
the displayed accounts (those with `abs(bal) >= 0.01`) is below one dollar,
and the reported difference equals positive minus absolute negative balances
over those displayed accounts. -/
theorem claim_trial_balance_amended (L : Ledger) :
    (balancedVerdict L = true ↔ |∑ a ∈ shownAccounts L, L.bal a| < 1)
    ∧ trialDiff L = (∑ a ∈ (shownAccounts L).filter (fun a => 0 < L.bal a), L.bal a)
        - (∑ a ∈ (shownAccounts L).filter (fun a => L.bal a < 0), -L.bal a) := by
  constructor
  · unfold balancedVerdict
    rw [trialDiff_eq_sum_shown]
    exact decide_eq_true_iff
  · unfold trialDiff trialDr trialCr
    have hfc : (shownAccounts L).filter (fun a => ¬0 < L.bal a)
        = (shownAccounts L).filter (fun a => L.bal a < 0) := by
      apply Finset.filter_congr
      intro a ha
      unfold shownAccounts at ha
      simp only [Finset.mem_filter] at ha
      have hne : L.bal a ≠ 0 := by
        intro h0
        rw [h0] at ha
        norm_num at ha
      constructor
      · intro hn
        exact lt_of_le_of_ne (not_lt.mp hn) hne
      · intro hlt
        exact not_lt.mpr hlt.le
    rw [hfc]

/-- C5: the income-statement reporter computes revenue as the negated sum of
the balances over the revenue account range 4000..4999, expenses as the sum
over the expense range 5000..7999, net income as their difference, and its
verdict holds iff the net income is within 100000 of the target. -/
theorem claim_income_statement (L : Ledger) (hWF : WF L) (target : ℚ) :
    revenueOf L = -(∑ a ∈ Finset.Icc (4000:ℤ) 4999, L.bal a)
    ∧ expensesOf L = ∑ a ∈ Finset.Icc (5000:ℤ) 7999, L.bal a
    ∧ netIncomeOf L = revenueOf L - expensesOf L
    ∧ (niVerdict L target = true ↔ |netIncomeOf L - target| < 100000) :=
  ⟨revenueOf_eq hWF, expensesOf_eq hWF, rfl, decide_eq_true_iff⟩

/-- C5 witness: the theorem applied to the one-account accumulator holding
100 on revenue account 4000 with target 0. -/
theorem claim_income_statement_witness :
    revenueOf (bump Ledger.empty 4000 100)
        = -(∑ a ∈ Finset.Icc (4000:ℤ) 4999, (bump Ledger.empty 4000 100).bal a)
    ∧ expensesOf (bump Ledger.empty 4000 100)
        = ∑ a ∈ Finset.Icc (5000:ℤ) 7999, (bump Ledger.empty 4000 100).bal a
    ∧ netIncomeOf (bump Ledger.empty 4000 100)
        = revenueOf (bump Ledger.empty 4000 100) - expensesOf (bump Ledger.empty 4000 100)
    ∧ (niVerdict (bump Ledger.empty 4000 100) 0 = true
        ↔ |netIncomeOf (bump Ledger.empty 4000 100) - 0| < 100000) :=
  claim_income_statement (bump Ledger.empty 4000 100) (WF_bump WF_empty 4000 100) 0

/-- C9: on every well-formed input, `verify_financials` terminates normally
with a report; unbalanced entries, a trial-balance mismatch and a net-income
deviation are surfaced only as the report's verdict fields, never as an
error. -/
theorem claim_reporting_total :
    ∀ (je : List JRow) (invs : List Invoice), ∃ r : Report,
      verify_financials je invs = Except.ok r
      ∧ r.unbalanced = unbalancedCount je
      ∧ r.balanced = balancedVerdict (projectAll (ledgerFromRows je) invs)
      ∧ r.ni_ok = niVerdict (projectAll (ledgerFromRows je) invs) NET_INCOME :=
  fun _ _ => ⟨_, rfl, rfl, rfl, rfl⟩

end Pinnacle
